import Mathlib

/-!
Shallow embedding of `scripts/fetch_data.py` (NYC property-sales fetcher).

The script's core is `NYCDataFetcher.fetch_sales_data`: a `while True` loop
that requests fixed-size pages from the Socrata API, accumulates the records,
and terminates on an empty page, on a short page, or on a request failure
after at least one page of progress.  A request failure on the very first
page re-raises.  After the loop the accumulation is converted to a DataFrame
and written to a timestamped CSV path and to the canonical path
`data/raw/nyc_property_sales.csv`.

Modelling choices:
* `Record` is a field-name/value association list (one JSON object).
* The HTTP transport is a function `Nat → PageResp` from the request offset
  to the outcome: `.ok data` for a 2xx response with parsed body `data`, and
  `.err` for a `requests.exceptions.RequestException` (transport failure or
  non-2xx status raised by `raise_for_status`).
* The `while True` loop becomes structural recursion on a fuel argument;
  `.fuelOut` marks fuel exhaustion and never arises for the transports the
  theorems consider.  The loop also logs the SoQL parameter set of every
  request it issues, in order.
* The file system is a map from path strings to structured CSV tables; a
  CSV table is a header row of column names plus value rows, which is the
  granularity `DataFrame.to_csv` / `read_csv` preserve.
-/

namespace NYCFetch

/-- One record returned by the API: a mapping field name → value. -/
abbrev Record := List (String × String)

/-- A single quote character, used by the SoQL `$where` string literal. -/
def squote : String := String.singleton (Char.ofNat 39)

/-- The SoQL query parameters the script builds for each page request
(`$limit`, `$offset`, `$where`, `$order`). -/
structure SoQLParams where
  limit : Nat
  offset : Nat
  whereClause : String
  order : String
  deriving DecidableEq, Repr

/-- The `$where` filter string
`sale_date >= '{start_date}' AND sale_date <= '{end_date}'`. -/
def soqlWhere (start_date end_date : String) : String :=
  "sale_date >= " ++ squote ++ start_date ++ squote ++
    " AND sale_date <= " ++ squote ++ end_date ++ squote

/-- The `$order` value `sale_date DESC`. -/
def soqlOrder : String := "sale_date DESC"

/-- The parameter dictionary built at the top of each loop iteration. -/
def mkParams (P o : Nat) (start_date end_date : String) : SoQLParams :=
  { limit := P, offset := o,
    whereClause := soqlWhere start_date end_date, order := soqlOrder }

/-- Outcome of one page request: parsed JSON body on success, or a
`RequestException` (connection/timeout failure or non-2xx status). -/
inductive PageResp where
  | ok (data : List Record)
  | err
  deriving DecidableEq

/-- Result of the fetch loop: the accumulated records on normal return, a
propagated exception, or fuel exhaustion (embedding artifact).  Every
constructor carries the list of requests issued, in order. -/
inductive LoopResult where
  | returned (records : List Record) (requests : List SoQLParams)
  | raised (requests : List SoQLParams)
  | fuelOut (requests : List SoQLParams)
  deriving DecidableEq

/-- The requests issued during the run, regardless of how it ended. -/
def LoopResult.requests : LoopResult → List SoQLParams
  | .returned _ q => q
  | .raised q => q
  | .fuelOut q => q

/-- The `while True` loop of `fetch_sales_data`, with page size `P`
(`self.limit`), current `offset`, accumulator `acc` (`all_data`) and request
log `reqs`.  Each iteration: build params, issue the request; on
`RequestException` break with the partial accumulation if `offset > 0`, else
re-raise; on success break on an empty body, extend the accumulator, break
on a short page, otherwise advance the offset by `P` and continue. -/
def fetchLoop (t : Nat → PageResp) (P : Nat) (start_date end_date : String) :
    Nat → Nat → List Record → List SoQLParams → LoopResult
  | 0, _, _, reqs => .fuelOut reqs
  | fuel + 1, offset, acc, reqs =>
    match t offset with
    | .err =>
      if 0 < offset then
        .returned acc (reqs ++ [mkParams P offset start_date end_date])
      else
        .raised (reqs ++ [mkParams P offset start_date end_date])
    | .ok data =>
      if data = [] then
        .returned acc (reqs ++ [mkParams P offset start_date end_date])
      else if data.length < P then
        .returned (acc ++ data) (reqs ++ [mkParams P offset start_date end_date])
      else
        fetchLoop t P start_date end_date fuel (offset + P) (acc ++ data)
          (reqs ++ [mkParams P offset start_date end_date])

/-- A well-behaved server holding `records` in the filtered, ordered date
range: the request at `offset` with page size `P` returns the slice
`records[offset : offset + P]` and never fails. -/
def serverTransport (records : List Record) (P : Nat) (o : Nat) : PageResp :=
  .ok ((records.drop o).take P)

/-- The header dictionary: starts empty; `X-App-Token` is added under
Python truthiness of `app_token` (`if app_token:`), so `None` and the empty
string both leave the headers empty. -/
def buildHeaders : Option String → List (String × String)
  | none => []
  | some tokn => if tokn = "" then [] else [("X-App-Token", tokn)]

/-- Field names of one record, in order. -/
def recordKeys (r : Record) : List String := r.map Prod.fst

/-- Column set of `pd.DataFrame(all_data)`: the union of the records' keys
in order of first appearance. -/
def dfColumns (records : List Record) : List String :=
  records.foldl
    (fun cols r =>
      (recordKeys r).foldl (fun cs k => if cs.contains k then cs else cs ++ [k]) cols)
    []

/-- A pandas DataFrame at the granularity the script uses: column names plus
the underlying rows. -/
structure DataFrame where
  columns : List String
  rows : List Record
  deriving DecidableEq

/-- `pd.DataFrame(all_data)`. -/
def toDataFrame (records : List Record) : DataFrame :=
  ⟨dfColumns records, records⟩

/-- Value of field `k` in record `r`; missing fields serialize as empty. -/
def lookupField (r : Record) (k : String) : String :=
  match r.find? (fun kv => kv.1 == k) with
  | some kv => kv.2
  | none => ""

/-- A CSV file as structured content: the header row of field names and the
data rows. -/
structure CSVFile where
  header : List String
  rows : List (List String)
  deriving DecidableEq

/-- `df.to_csv(path, index=False)`: header row of the columns, then one row
per record with the values in column order. -/
def to_csv (df : DataFrame) : CSVFile :=
  ⟨df.columns, df.rows.map (fun r => df.columns.map (lookupField r))⟩

/-- Field names recovered by reading a written CSV file back. -/
def csvFieldNames (f : CSVFile) : List String := f.header

/-- Row count recovered by reading a written CSV file back. -/
def csvRowCount (f : CSVFile) : Nat := f.rows.length

/-- The file system visible to the script: path → file content. -/
def FS := String → Option CSVFile

/-- Writing file content `c` at path `p`. -/
def writeFile (fs : FS) (p : String) (c : CSVFile) : FS :=
  fun q => if q = p then some c else fs q

/-- `self.limit = 50000`, the fixed page size (API maximum). -/
def limit : Nat := 50000

/-- `self.data_dir = Path("data/raw")`. -/
def data_dir : String := "data/raw"

/-- The canonical pipeline path `data/raw/nyc_property_sales.csv`. -/
def standardPath : String := data_dir ++ "/" ++ "nyc_property_sales.csv"

/-- The timestamped archival path
`data/raw/nyc_property_sales_{start}_{end}_{timestamp}.csv`. -/
def tsFilename (start_date end_date timestamp : String) : String :=
  data_dir ++ "/" ++ "nyc_property_sales_" ++ start_date ++ "_" ++ end_date
    ++ "_" ++ timestamp ++ ".csv"

/-- Result of one call to `fetch_sales_data`: the returned DataFrame, a
propagated exception, or fuel exhaustion; each with the request log. -/
inductive FetchResult where
  | ok (df : DataFrame) (requests : List SoQLParams)
  | raised (requests : List SoQLParams)
  | fuelOut (requests : List SoQLParams)
  deriving DecidableEq

/-- `fetch_sales_data`: run the loop from offset 0 with empty accumulator;
on normal return build the DataFrame and write it to the timestamped path
and then to the canonical path; on a re-raised first-page failure the file
system is left untouched. -/
def fetch_sales_data (t : Nat → PageResp) (start_date end_date timestamp : String)
    (_app_token : Option String) (fuel : Nat) (fs : FS) : FetchResult × FS :=
  match fetchLoop t limit start_date end_date fuel 0 [] [] with
  | .returned recs reqs =>
    let df := toDataFrame recs
    let c := to_csv df
    (.ok df reqs, writeFile (writeFile fs (tsFilename start_date end_date timestamp) c)
      standardPath c)
  | .raised reqs => (.raised reqs, fs)
  | .fuelOut reqs => (.fuelOut reqs, fs)

/-- Outcome of the metadata probe request in `get_dataset_info`:
transport failure, non-2xx status (raised by `raise_for_status`), a body
`response.json()` fails to parse, or a parsed metadata object. -/
inductive MetaOutcome where
  | transportFailure
  | httpError (code : Nat)
  | malformedBody
  | success (m : List (String × String))
  deriving DecidableEq

/-- The body of `get_dataset_info`'s `try` block: any failing outcome
raises; a parsed body is returned. -/
def get_dataset_info_body : MetaOutcome → Except Unit (List (String × String))
  | .transportFailure => .error ()
  | .httpError _ => .error ()
  | .malformedBody => .error ()
  | .success m => .ok m

/-- `get_dataset_info`: the `try` block wrapped in `except Exception`, which
logs and returns `None` on any raised exception. -/
def get_dataset_info (o : MetaOutcome) : Option (List (String × String)) :=
  match get_dataset_info_body o with
  | .ok m => some m
  | .error _ => none

/-! ### Basic unfolding lemmas for the loop -/

/-- One successful full page (nonempty, not short): the loop does not stop;
it extends the accumulator and continues at `offset + P`. -/
theorem fetchLoop_step_full (t : Nat → PageResp) (P : Nat) (ss es : String)
    (fuel o : Nat) (acc : List Record) (reqs : List SoQLParams) (d : List Record)
    (hd : t o = .ok d) (hne : d ≠ []) (hfull : ¬ d.length < P) :
    fetchLoop t P ss es (fuel + 1) o acc reqs =
      fetchLoop t P ss es fuel (o + P) (acc ++ d) (reqs ++ [mkParams P o ss es]) := by
  simp [fetchLoop, hd, hne, hfull]

/-- One successful empty page: the loop stops and returns the accumulator. -/
theorem fetchLoop_step_empty (t : Nat → PageResp) (P : Nat) (ss es : String)
    (fuel o : Nat) (acc : List Record) (reqs : List SoQLParams)
    (hd : t o = .ok []) :
    fetchLoop t P ss es (fuel + 1) o acc reqs =
      .returned acc (reqs ++ [mkParams P o ss es]) := by
  simp [fetchLoop, hd]

/-- One successful short nonempty page: the loop appends it and stops. -/
theorem fetchLoop_step_short (t : Nat → PageResp) (P : Nat) (ss es : String)
    (fuel o : Nat) (acc : List Record) (reqs : List SoQLParams) (d : List Record)
    (hd : t o = .ok d) (hne : d ≠ []) (hshort : d.length < P) :
    fetchLoop t P ss es (fuel + 1) o acc reqs =
      .returned (acc ++ d) (reqs ++ [mkParams P o ss es]) := by
  simp [fetchLoop, hd, hne, hshort]

/-! ### The loop against a well-behaved server -/

/-- Against `serverTransport records P`, the loop started at `offset = o`
with enough fuel returns the accumulator extended by every remaining record
and issues exactly `(records.length - o) / P + 1` further requests. -/
theorem fetchLoop_server_run (recs : List Record) (P : Nat) (ss es : String)
    (hP : 0 < P) :
    ∀ fuel, ∀ o acc reqs, (recs.length - o) / P + 1 ≤ fuel →
      ∃ q, fetchLoop (serverTransport recs P) P ss es fuel o acc reqs =
          .returned (acc ++ recs.drop o) q ∧
          q.length = reqs.length + ((recs.length - o) / P + 1) := by
  intro fuel
  induction fuel with
  | zero => intro o acc reqs h; exact absurd h (Nat.not_succ_le_zero _)
  | succ fuel ih =>
    intro o acc reqs h
    by_cases hempty : (recs.drop o).take P = []
    · have hdrop : recs.drop o = [] := by
        rcases List.take_eq_nil_iff.mp hempty with hP0 | hnil
        · omega
        · exact hnil
      have hlen0 : recs.length - o = 0 := by
        have := List.drop_eq_nil_iff.mp hdrop
        omega
      refine ⟨reqs ++ [mkParams P o ss es], ?_, ?_⟩
      · rw [fetchLoop_step_empty (serverTransport recs P) P ss es fuel o acc reqs ?_]
        · rw [hdrop, List.append_nil]
        · show PageResp.ok ((recs.drop o).take P) = PageResp.ok []
          rw [hempty]
      · simp [hlen0]
    · by_cases hshort : ((recs.drop o).take P).length < P
      · have hlt : (recs.drop o).length < P := by
          rw [List.length_take] at hshort
          omega
        have htake : (recs.drop o).take P = recs.drop o :=
          List.take_of_length_le (le_of_lt hlt)
        have hlen : recs.length - o < P := by
          have := List.length_drop o recs
          omega
        refine ⟨reqs ++ [mkParams P o ss es], ?_, ?_⟩
        · rw [fetchLoop_step_short (serverTransport recs P) P ss es fuel o acc reqs
            ((recs.drop o).take P) rfl hempty hshort, htake]
        · simp [Nat.div_eq_of_lt hlen]
      · have hge : P ≤ (recs.drop o).length := by
          rw [List.length_take] at hshort
          omega
        have hgeP : P ≤ recs.length - o := by
          have := List.length_drop o recs
          omega
        have hdiv : (recs.length - o) / P = (recs.length - o - P) / P + 1 :=
          Nat.div_eq_sub_div hP hgeP
        have hsub : recs.length - (o + P) = recs.length - o - P := by omega
        obtain ⟨q, hq, hlq⟩ :=
          ih (o + P) (acc ++ (recs.drop o).take P) (reqs ++ [mkParams P o ss es])
            (by rw [hsub]; omega)
        refine ⟨q, ?_, ?_⟩
        · rw [fetchLoop_step_full (serverTransport recs P) P ss es fuel o acc reqs
            ((recs.drop o).take P) rfl hempty hshort, hq]
          have hjoin : (recs.drop o).take P ++ recs.drop (o + P) = recs.drop o := by
            rw [← List.drop_drop, List.take_append_drop]
          rw [List.append_assoc, hjoin]
        · rw [hlq, hsub]
          simp only [List.length_append, List.length_cons, List.length_nil]
          omega

/-! ### Shape of the request log, for any transport -/

/-- For any transport, the run started at `offset = o` extends the request
log by requests whose parameters are `mkParams P (o + i * P) ss es` for
`i = 0, 1, 2, ...`: fixed limit, filter and order, and offsets advancing
from `o` in steps of exactly `P`. -/
theorem fetchLoop_requests_shape (t : Nat → PageResp) (P : Nat) (ss es : String) :
    ∀ fuel, ∀ o acc reqs, ∃ m,
      (fetchLoop t P ss es fuel o acc reqs).requests =
        reqs ++ (List.range m).map (fun i => mkParams P (o + i * P) ss es) := by
  intro fuel
  induction fuel with
  | zero =>
    intro o acc reqs
    exact ⟨0, by simp [fetchLoop, LoopResult.requests]⟩
  | succ fuel ih =>
    intro o acc reqs
    cases h : t o with
    | err =>
      refine ⟨1, ?_⟩
      by_cases ho : 0 < o <;>
        simp [fetchLoop, h, ho, LoopResult.requests, List.range_succ]
    | ok d =>
      by_cases hd : d = []
      · exact ⟨1, by simp [fetchLoop, h, hd, LoopResult.requests, List.range_succ]⟩
      · by_cases hshort : d.length < P
        · exact ⟨1, by simp [fetchLoop, h, hd, hshort, LoopResult.requests,
            List.range_succ]⟩
        · obtain ⟨m, hm⟩ := ih (o + P) (acc ++ d) (reqs ++ [mkParams P o ss es])
          refine ⟨m + 1, ?_⟩
          rw [fetchLoop_step_full t P ss es fuel o acc reqs d h hd hshort, hm,
            List.range_succ_eq_map, List.map_cons, List.map_map]
          have hf : ((fun i => mkParams P (o + i * P) ss es) ∘ Nat.succ)
              = fun i => mkParams P (o + P + i * P) ss es := by
            funext i
            have harith : o + Nat.succ i * P = o + P + i * P := by
              rw [Nat.succ_mul]; omega
            simp [Function.comp, harith]
          rw [hf]
          simp

/-! ### Where the loop can raise -/

/-- Once the offset is positive (at least one full page has been fetched),
a request failure breaks with the partial accumulation: the loop can no
longer re-raise. -/
theorem fetchLoop_ne_raised_of_pos (t : Nat → PageResp) (P : Nat) (ss es : String) :
    ∀ fuel o acc reqs q, 0 < o →
      fetchLoop t P ss es fuel o acc reqs ≠ .raised q := by
  intro fuel
  induction fuel with
  | zero => intro o acc reqs q ho; simp [fetchLoop]
  | succ fuel ih =>
    intro o acc reqs q ho
    cases h : t o with
    | err => simp [fetchLoop, h, ho]
    | ok d =>
      by_cases hd : d = []
      · simp [fetchLoop, h, hd]
      · by_cases hshort : d.length < P
        · simp [fetchLoop, h, hd, hshort]
        · rw [fetchLoop_step_full t P ss es fuel o acc reqs d h hd hshort]
          exact ih (o + P) (acc ++ d) (reqs ++ [mkParams P o ss es]) q (by omega)

/-- If the run from offset 0 raises, the very first request failed. -/
theorem fetchLoop_raised_first (t : Nat → PageResp) (P : Nat) (ss es : String)
    (hP : 0 < P) :
    ∀ fuel acc reqs q, fetchLoop t P ss es fuel 0 acc reqs = .raised q →
      t 0 = .err := by
  intro fuel acc reqs q h
  cases fuel with
  | zero => simp [fetchLoop] at h
  | succ fuel =>
    cases ht : t 0 with
    | err => rfl
    | ok d =>
      exfalso
      by_cases hd : d = []
      · rw [fetchLoop_step_empty t P ss es fuel 0 acc reqs (hd ▸ ht)] at h
        exact LoopResult.noConfusion h
      · by_cases hshort : d.length < P
        · rw [fetchLoop_step_short t P ss es fuel 0 acc reqs d ht hd hshort] at h
          exact LoopResult.noConfusion h
        · rw [fetchLoop_step_full t P ss es fuel 0 acc reqs d ht hd hshort] at h
          exact fetchLoop_ne_raised_of_pos t P ss es fuel (0 + P) (acc ++ d)
            (reqs ++ [mkParams P 0 ss es]) q (by omega) h

/-! ### Concrete fixtures for witnesses and counterexamples -/

/-- A sample record. -/
def recA : Record := [("sale_date", "2020-01-02"), ("sale_price", "100")]

/-- A sample record. -/
def recB : Record := [("sale_date", "2020-01-01"), ("sale_price", "200")]

/-- A sample record. -/
def recC : Record := [("sale_date", "2020-01-01"), ("sale_price", "300")]

/-- A transport that succeeds with a full page of two records at offset 0
and fails on every later request. -/
def tC3 : Nat → PageResp := fun o => if o = 0 then .ok [recA, recB] else .err

/-- A transport that fails on every request. -/
def tErr : Nat → PageResp := fun _ => .err

/-- A transport whose every response is an empty page. -/
def tEmpty : Nat → PageResp := fun _ => .ok []

/-- An empty file system. -/
def fs0 : FS := fun _ => none

/-! ### Claims -/

/-- Claim C1 (counterexample): the claim asserts exactly `ceil(N / P)` page
requests for every page size `P` and `N > 0`.  At `P = 2` with `N = 2`
records the server is exhausted by one full page, yet the loop issues a
second request (which returns the empty page) before stopping: 2 requests,
while `ceil(2 / 2) = (2 + 2 - 1) / 2 = 1`. -/
theorem C1_counterexample :
    (fetchLoop (serverTransport [recA, recB] 2) 2 "2020-01-01" "2020-01-03"
      5 0 [] []).requests.length = 2 ∧ (2 + 2 - 1) / 2 = 1 := by
  decide

/-- Claim C1 (amended): against a server holding `N` records in the range,
with every request succeeding, `fetch_sales_data`'s loop returns all `N`
records and issues exactly `N / P + 1` requests.  This equals `ceil(N / P)`
when `N > 0` and `P` does not divide `N`, is `ceil(N / P) + 1` when `P`
divides `N > 0`, and is the single empty-page request when `N = 0`. -/
theorem C1_request_count (recs : List Record) (P : Nat) (ss es : String)
    (fuel : Nat) (hP : 0 < P) (hfuel : recs.length / P + 1 ≤ fuel) :
    ∃ q, fetchLoop (serverTransport recs P) P ss es fuel 0 [] [] =
        .returned recs q ∧ q.length = recs.length / P + 1 := by
  obtain ⟨q, hq, hl⟩ :=
    fetchLoop_server_run recs P ss es hP fuel 0 [] [] (by simpa using hfuel)
  exact ⟨q, by simpa using hq, by simpa using hl⟩

/-- Witness for C1: three records with page size 2 need `3 / 2 + 1 = 2`
requests. -/
theorem C1_request_count_witness :
    ∃ q, fetchLoop (serverTransport [recA, recB, recC] 2) 2 "s" "e" 3 0 [] [] =
        .returned [recA, recB, recC] q ∧
        q.length = [recA, recB, recC].length / 2 + 1 :=
  C1_request_count [recA, recB, recC] 2 "s" "e" 3 (by decide) (by decide)

/-- Claim C2: assuming requests succeed, one loop iteration stops exactly
when the page is empty (returning the accumulator) or short (returning the
accumulator extended by it), and continues on a full page even if it
exhausts the data; consequently, for `N > 0` divisible by `P` the run takes
`N / P + 1` requests — one more than `ceil(N / P)` — and the server's
response to the extra request (at offset `N`) is the empty page. -/
theorem C2_termination :
    (∀ (t : Nat → PageResp) (P : Nat) (ss es : String) fuel o acc reqs d,
        t o = .ok d → d ≠ [] → ¬ d.length < P →
        fetchLoop t P ss es (fuel + 1) o acc reqs =
          fetchLoop t P ss es fuel (o + P) (acc ++ d)
            (reqs ++ [mkParams P o ss es])) ∧
    (∀ (t : Nat → PageResp) (P : Nat) (ss es : String) fuel o acc reqs,
        t o = .ok [] →
        fetchLoop t P ss es (fuel + 1) o acc reqs =
          .returned acc (reqs ++ [mkParams P o ss es])) ∧
    (∀ (t : Nat → PageResp) (P : Nat) (ss es : String) fuel o acc reqs d,
        t o = .ok d → d ≠ [] → d.length < P →
        fetchLoop t P ss es (fuel + 1) o acc reqs =
          .returned (acc ++ d) (reqs ++ [mkParams P o ss es])) ∧
    (∀ (recs : List Record) (P : Nat) (ss es : String) fuel,
        0 < P → P ∣ recs.length → recs ≠ [] → recs.length / P + 1 ≤ fuel →
        serverTransport recs P recs.length = .ok [] ∧
        ∃ q, fetchLoop (serverTransport recs P) P ss es fuel 0 [] [] =
            .returned recs q ∧ q.length = recs.length / P + 1 ∧
            (recs.length + P - 1) / P + 1 = q.length) := by
  refine ⟨fetchLoop_step_full, fetchLoop_step_empty, fetchLoop_step_short,
    fun recs P ss es fuel hP hdvd hne hfuel => ⟨?_, ?_⟩⟩
  · simp [serverTransport, List.drop_length]
  · obtain ⟨q, hq, hl⟩ :=
      fetchLoop_server_run recs P ss es hP fuel 0 [] [] (by simpa using hfuel)
    refine ⟨q, by simpa using hq, by simpa using hl, ?_⟩
    obtain ⟨k, hk⟩ := hdvd
    have hk1 : 1 ≤ k := by
      rcases Nat.eq_zero_or_pos k with h0 | h1
      · exfalso
        apply hne
        apply List.length_eq_zero.mp
        rw [hk, h0, Nat.mul_zero]
      · exact h1
    have hkP : recs.length = k * P := by rw [hk, Nat.mul_comm]
    have hceil : (recs.length + P - 1) / P = k := by
      have hrw : recs.length + P - 1 = (P - 1) + k * P := by
        rw [hkP]
        omega
      rw [hrw, Nat.add_mul_div_right _ _ hP, Nat.div_eq_of_lt (by omega)]
      omega
    have hfloor : recs.length / P = k := by
      rw [hk, Nat.mul_div_cancel_left k hP]
    rw [hceil]
    simp [hl, hfloor]

/-- Witness for C2: two records with page size 2 (`P ∣ N`, `N > 0`) take
`2 / 2 + 1 = 2` requests, one more than `ceil(2 / 2) = 1`. -/
theorem C2_termination_witness :
    serverTransport [recA, recB] 2 (List.length [recA, recB]) = .ok [] ∧
    ∃ q, fetchLoop (serverTransport [recA, recB] 2) 2 "s" "e" 2 0 [] [] =
        .returned [recA, recB] q ∧ q.length = [recA, recB].length / 2 + 1 ∧
        ([recA, recB].length + 2 - 1) / 2 + 1 = q.length :=
  C2_termination.2.2.2 [recA, recB] 2 "s" "e" 2 (by decide) (by decide)
    (by decide) (by decide)

/-- Claim C3: if the first request succeeds with exactly `P` records and
the second fails (transport or HTTP-status error), the loop breaks instead
of re-raising and returns exactly the first page's records, in order. -/
theorem C3_truncated_return (t : Nat → PageResp) (P : Nat) (ss es : String)
    (fuel : Nat) (d : List Record) (hP : 0 < P)
    (h0 : t 0 = .ok d) (hlen : d.length = P) (h1 : t P = .err) :
    fetchLoop t P ss es (fuel + 2) 0 [] [] =
      .returned d [mkParams P 0 ss es, mkParams P P ss es] := by
  have hne : d ≠ [] := by
    intro hc
    rw [hc] at hlen
    simp at hlen
    omega
  have hfull : ¬ d.length < P := by omega
  rw [show fuel + 2 = (fuel + 1) + 1 from rfl,
    fetchLoop_step_full t P ss es (fuel + 1) 0 [] [] d h0 hne hfull]
  simp only [List.nil_append, Nat.zero_add]
  simp [fetchLoop, h1, hP]

/-- Witness for C3: a transport giving a full page of two records then
failing returns exactly those two records. -/
theorem C3_truncated_return_witness :
    fetchLoop tC3 2 "s" "e" 2 0 [] [] =
      .returned [recA, recB] [mkParams 2 0 "s" "e", mkParams 2 2 "s" "e"] :=
  C3_truncated_return tC3 2 "s" "e" 0 [recA, recB] (by decide) (by decide)
    (by decide) (by decide)

/-- Claim C4: if the very first request fails, the loop re-raises the
exception (the `offset > 0` guard is false) after issuing exactly that one
request, and no records are returned. -/
theorem C4_first_page_raises (t : Nat → PageResp) (P : Nat) (ss es : String)
    (fuel : Nat) (h : t 0 = .err) :
    fetchLoop t P ss es (fuel + 1) 0 [] [] = .raised [mkParams P 0 ss es] := by
  simp [fetchLoop, h]

/-- Witness for C4: the always-failing transport raises on the first page. -/
theorem C4_first_page_raises_witness :
    fetchLoop tErr 2 "s" "e" 1 0 [] [] = .raised [mkParams 2 0 "s" "e"] :=
  C4_first_page_raises tErr 2 "s" "e" 0 (by decide)

/-- Claim C5: if the first request succeeds with an empty page,
`fetch_sales_data` returns the empty DataFrame (no records) rather than
raising, after that single request. -/
theorem C5_empty_result (t : Nat → PageResp) (ss es ts : String)
    (tok : Option String) (fuel : Nat) (fs : FS) (h : t 0 = .ok []) :
    (fetch_sales_data t ss es ts tok (fuel + 1) fs).1 =
      .ok (toDataFrame []) [mkParams limit 0 ss es] := by
  unfold fetch_sales_data
  rw [fetchLoop_step_empty t limit ss es fuel 0 [] [] h]
  simp

/-- Witness for C5: the empty-page transport yields the empty DataFrame. -/
theorem C5_empty_result_witness :
    (fetch_sales_data tEmpty "s" "e" "t" none 1 fs0).1 =
      .ok (toDataFrame []) [mkParams limit 0 "s" "e"] :=
  C5_empty_result tEmpty "s" "e" "t" none 0 fs0 (by decide)

/-- Claim C6: for any transport, the run from offset 0 issues its requests
at offsets `0, P, 2P, ...` — the i-th request's offset is exactly `i * P` —
and for positive `P` the offsets are strictly increasing until termination. -/
theorem C6_offset_progression (t : Nat → PageResp) (P : Nat) (ss es : String)
    (fuel : Nat) (hP : 0 < P) :
    ((fetchLoop t P ss es fuel 0 [] []).requests.map SoQLParams.offset =
      (List.range (fetchLoop t P ss es fuel 0 [] []).requests.length).map
        (fun i => i * P)) ∧
    ((fetchLoop t P ss es fuel 0 [] []).requests.map
      SoQLParams.offset).Pairwise (· < ·) := by
  obtain ⟨m, hm⟩ := fetchLoop_requests_shape t P ss es fuel 0 [] []
  rw [List.nil_append] at hm
  rw [hm]
  constructor
  · rw [List.map_map, List.length_map, List.length_range]
    simp [Function.comp, mkParams]
  · rw [List.map_map]
    refine List.Pairwise.map _ ?_ (List.pairwise_lt_range m)
    intro a b hab
    simp only [Function.comp, mkParams, Nat.zero_add]
    exact Nat.mul_lt_mul_of_pos_right hab hP

/-- Witness for C6: a one-record server at page size 2. -/
theorem C6_offset_progression_witness :
    ((fetchLoop (serverTransport [recA] 2) 2 "s" "e" 3 0 [] []).requests.map
        SoQLParams.offset =
      (List.range (fetchLoop (serverTransport [recA] 2) 2 "s" "e"
        3 0 [] []).requests.length).map (fun i => i * 2)) ∧
    ((fetchLoop (serverTransport [recA] 2) 2 "s" "e" 3 0 [] []).requests.map
      SoQLParams.offset).Pairwise (· < ·) :=
  C6_offset_progression (serverTransport [recA] 2) 2 "s" "e" 3 (by decide)

/-- Claim C7 (counterexample): the claim says the `X-App-Token` header is
sent if and only if an app token was supplied; but the code guards the
header with Python truthiness (`if app_token:`), so supplying the empty
string as the token sends no header. -/
theorem C7_counterexample :
    buildHeaders (some "") = [] ∧ (some "" : Option String) ≠ none := by
  decide

/-- Claim C7 (amended): every request the loop issues carries
`$limit = P`, its logged `$offset`, the filter
`sale_date >= '{start}' AND sale_date <= '{end}'` (both bounds inclusive)
and `$order = sale_date DESC`; the `X-App-Token` header is present with
value `tk` iff a non-empty app token `tk` was supplied (`None` and `""`
both leave the headers empty, by Python truthiness). -/
theorem C7_request_shape (t : Nat → PageResp) (P : Nat) (ss es : String)
    (fuel : Nat) (tok : Option String) :
    (∀ p ∈ (fetchLoop t P ss es fuel 0 [] []).requests,
        p.limit = P ∧ p.whereClause = soqlWhere ss es ∧ p.order = soqlOrder) ∧
    (∀ tk : String, ("X-App-Token", tk) ∈ buildHeaders tok ↔
        tok = some tk ∧ tk ≠ "") := by
  constructor
  · obtain ⟨m, hm⟩ := fetchLoop_requests_shape t P ss es fuel 0 [] []
    rw [List.nil_append] at hm
    rw [hm]
    intro p hp
    simp only [List.mem_map, List.mem_range] at hp
    obtain ⟨i, _, rfl⟩ := hp
    exact ⟨rfl, rfl, rfl⟩
  · intro tk
    cases tok with
    | none => simp [buildHeaders]
    | some s =>
      by_cases hs : s = ""
      · simp [buildHeaders, hs]
        exact fun h => h.symm
      · simp only [buildHeaders, if_neg hs, List.mem_singleton, Prod.mk.injEq,
          Option.some.injEq, true_and]
        constructor
        · rintro rfl
          exact ⟨rfl, hs⟩
        · rintro ⟨rfl, _⟩
          rfl

/-- Witness for C7: the first request of a concrete run, and a concrete
non-empty token. -/
theorem C7_request_shape_witness :
    ((mkParams 2 0 "s" "e").limit = 2 ∧
      (mkParams 2 0 "s" "e").whereClause = soqlWhere "s" "e" ∧
      (mkParams 2 0 "s" "e").order = soqlOrder) ∧
    (("X-App-Token", "tok") ∈ buildHeaders (some "tok") ↔
      (some "tok" : Option String) = some "tok" ∧ "tok" ≠ "") :=
  ⟨(C7_request_shape tC3 2 "s" "e" 2 (some "tok")).1 (mkParams 2 0 "s" "e")
      (by decide),
    (C7_request_shape tC3 2 "s" "e" 2 (some "tok")).2 "tok"⟩

/-- Claim C8: on a successful return, the CSV of the accumulated DataFrame
is written both to the timestamped path and to the canonical path
`data/raw/nyc_property_sales.csv`; reading the canonical file back yields
exactly the accumulation's field names (first-appearance union of the
records' keys) and its row count. -/
theorem C8_round_trip (t : Nat → PageResp) (ss es ts : String)
    (tok : Option String) (fuel : Nat) (fs : FS) (df : DataFrame)
    (reqs : List SoQLParams) (fs2 : FS)
    (h : fetch_sales_data t ss es ts tok fuel fs = (.ok df reqs, fs2)) :
    fs2 (tsFilename ss es ts) = some (to_csv df) ∧
    fs2 standardPath = some (to_csv df) ∧
    csvFieldNames (to_csv df) = dfColumns df.rows ∧
    csvRowCount (to_csv df) = df.rows.length := by
  unfold fetch_sales_data at h
  cases hl : fetchLoop t limit ss es fuel 0 [] [] with
  | returned recs q =>
    rw [hl] at h
    simp only [Prod.mk.injEq, FetchResult.ok.injEq] at h
    obtain ⟨⟨hdf, hreqs⟩, hfs⟩ := h
    subst hdf
    refine ⟨?_, ?_, rfl, by simp [to_csv, csvRowCount]⟩
    · rw [← hfs]
      by_cases hpath : tsFilename ss es ts = standardPath
      · simp [writeFile, hpath]
      · simp [writeFile, hpath]
    · rw [← hfs]
      simp [writeFile]
  | raised q =>
    rw [hl] at h
    exact absurd h (by simp)
  | fuelOut q =>
    rw [hl] at h
    exact absurd h (by simp)

/-- Witness for C8: a one-record fetch against the real page size writes
the one-row CSV to both paths. -/
theorem C8_round_trip_witness :
    (fetch_sales_data (serverTransport [recA] limit) "s" "e" "t" none 1 fs0).2
        (tsFilename "s" "e" "t") = some (to_csv (toDataFrame [recA])) ∧
    (fetch_sales_data (serverTransport [recA] limit) "s" "e" "t" none 1 fs0).2
        standardPath = some (to_csv (toDataFrame [recA])) ∧
    csvFieldNames (to_csv (toDataFrame [recA])) =
      dfColumns (toDataFrame [recA]).rows ∧
    csvRowCount (to_csv (toDataFrame [recA])) =
      (toDataFrame [recA]).rows.length :=
  C8_round_trip (serverTransport [recA] limit) "s" "e" "t" none 1 fs0
    (toDataFrame [recA]) [mkParams limit 0 "s" "e"]
    ((fetch_sales_data (serverTransport [recA] limit) "s" "e" "t" none 1 fs0).2)
    rfl

/-- Claim C9: the whole `try` body of `get_dataset_info` is wrapped in
`except Exception`, so every failing outcome of the metadata request —
transport failure, non-2xx status, malformed body — yields `None` rather
than a raised exception, and more generally any raising body yields
`None`: a metadata-probe failure can never abort the main fetch. -/
theorem C9_metadata_probe :
    get_dataset_info .transportFailure = none ∧
    (∀ code : Nat, get_dataset_info (.httpError code) = none) ∧
    get_dataset_info .malformedBody = none ∧
    (∀ o : MetaOutcome, (get_dataset_info_body o).isOk = false →
        get_dataset_info o = none) := by
  refine ⟨rfl, fun _ => rfl, rfl, fun o h => ?_⟩
  cases o <;>
    simp [get_dataset_info, get_dataset_info_body, Except.isOk, Except.toBool]
      at h ⊢

/-- Witness for C9: the transport-failure outcome yields `None`. -/
theorem C9_metadata_probe_witness :
    get_dataset_info .transportFailure = none :=
  C9_metadata_probe.2.2.2 .transportFailure rfl

/-- Claim C10: if `fetch_sales_data` raises — which happens only when the
very first page request fails — no CSV write is reached: the returned file
system is the input file system, unchanged. -/
theorem C10_no_write_on_raise (t : Nat → PageResp) (ss es ts : String)
    (tok : Option String) (fuel : Nat) (fs : FS) (reqs : List SoQLParams)
    (fs2 : FS)
    (h : fetch_sales_data t ss es ts tok fuel fs = (.raised reqs, fs2)) :
    fs2 = fs ∧ t 0 = .err := by
  unfold fetch_sales_data at h
  cases hl : fetchLoop t limit ss es fuel 0 [] [] with
  | returned recs q =>
    rw [hl] at h
    exact absurd h (by simp)
  | fuelOut q =>
    rw [hl] at h
    exact absurd h (by simp)
  | raised q =>
    rw [hl] at h
    simp only [Prod.mk.injEq, FetchResult.raised.injEq] at h
    obtain ⟨hq, hfs⟩ := h
    exact ⟨hfs.symm,
      fetchLoop_raised_first t limit ss es (by decide) fuel [] [] q hl⟩

/-- Witness for C10: the always-failing transport leaves the empty file
system untouched. -/
theorem C10_no_write_on_raise_witness :
    (fetch_sales_data tErr "s" "e" "t" none 1 fs0).2 = fs0 ∧ tErr 0 = .err :=
  C10_no_write_on_raise tErr "s" "e" "t" none 1 fs0 [mkParams limit 0 "s" "e"]
    ((fetch_sales_data tErr "s" "e" "t" none 1 fs0).2) rfl

end NYCFetch
